import Mathlib

/-!
Verification development for the tile-streaming core of the Alpine Terrain
Renderer (scheduler in `nucleus/tile_scheduler/Scheduler.cpp`, texture
parameter checks in `gl_engine/Texture.cpp`).

The scheduler's collaborators (the bounded cache, the quad-tree traverser,
the refinement functor, the image-decoding helpers) are declared in headers
that are not part of this source drop; they are modelled here from the
design document (sections 3, 4.B, 4.C and 4.D), as noted on each
definition.  The scheduler and texture functions themselves are translated
directly from the C++ sources.
-/

/-- Tile identifier: `(zoom, x, y)` as in `tile::Id`. -/
structure TileId where
  zoom : Nat
  x : Nat
  y : Nat
deriving DecidableEq

/-- The four children of a tile, `tile::Id::children()`.
Modelled from the spec: a tile at zoom z has four children at zoom z+1
addressed by (2x,2y), (2x+1,2y), (2x,2y+1), (2x+1,2y+1). -/
def TileId.children (id : TileId) : List TileId :=
  [ ⟨id.zoom + 1, 2 * id.x, 2 * id.y⟩
  , ⟨id.zoom + 1, 2 * id.x + 1, 2 * id.y⟩
  , ⟨id.zoom + 1, 2 * id.x, 2 * id.y + 1⟩
  , ⟨id.zoom + 1, 2 * id.x + 1, 2 * id.y + 1⟩ ]

/-- World-space bounding boxes are produced by the externally injected AABB
decorator (spec section 4.A); the box itself is opaque to the scheduler, so
it is modelled as an abstract handle. -/
abbrev Aabb := Nat

/-- A payload byte blob.  `bytes` are the raw bytes; `decodable` records
whether the external image decoder can parse them (the scheduler never
inspects this flag - it is part of the decoder model only). -/
structure Blob where
  bytes : List Nat
  decodable : Bool
deriving DecidableEq

/-- A decoded image.  Modelled from the spec: image decoding is an external
collaborator (section 1); `toQImage` of undecodable bytes yields the null
image, of decodable bytes an image determined by the bytes. -/
inductive Image where
  | null : Image
  | raster : List Nat → Image
deriving DecidableEq

/-- Modelled from the spec: `nucleus::utils::tile_conversion::toQImage`.
Decodes a byte blob; malformed bytes give the null image, nothing raises. -/
def toQImage (b : Blob) : Image :=
  if b.decodable then Image.raster b.bytes else Image.null

/-- A 16-bit unsigned integer height raster, kept abstract as the image it
was converted from. -/
structure HeightRaster where
  fromImage : Image
deriving DecidableEq

/-- Modelled from the spec:
`nucleus::utils::tile_conversion::qImage2uint16Raster`. -/
def qImage2uint16Raster (img : Image) : HeightRaster :=
  ⟨img⟩

/-- One child tile of a CPU-side quad: id and the two optional payload
blobs (`tile_types::TileQuad` children). -/
structure TileInfo where
  id : TileId
  ortho : Option Blob
  height : Option Blob
deriving DecidableEq

/-- A CPU-side tile quad: parent id and its child tiles (the C++ struct
carries `n_tiles` and a fixed array; the list holds exactly the first
`n_tiles` children the loop in `update_gpu_quads` touches). -/
structure TileQuad where
  id : TileId
  tiles : List TileInfo
deriving DecidableEq

/-- One decoded GPU-side tile (`tile_types::GpuTileQuad` child). -/
structure GpuTile where
  id : TileId
  bounds : Aabb
  ortho : Image
  height : HeightRaster
deriving DecidableEq

/-- A GPU-side tile quad. -/
structure GpuTileQuad where
  id : TileId
  tiles : List GpuTile
deriving DecidableEq

/-- Shadow-cache record: id only (`tile_types::GpuCacheInfo`). -/
structure GpuCacheInfo where
  id : TileId
deriving DecidableEq

/-- One entry of the bounded cache: id, stored value, useful flag.
Modelled from the spec, section 3: "an insertion-ordered mapping from tile
id to T, plus a boolean useful flag per entry and a capacity limit". -/
structure Entry (α : Type) where
  id : TileId
  value : α
  useful : Bool
deriving DecidableEq

/-- The bounded cache `nucleus::tile_scheduler::Cache<T>`.  Modelled from
the spec, sections 3 and 4.D; entries are kept in insertion order. -/
structure Cache (α : Type) where
  entries : List (Entry α)
  capacity : Nat
deriving DecidableEq

namespace Cache

/-- Modelled from the spec: `contains(id)`. -/
def contains (c : Cache α) (id : TileId) : Bool :=
  c.entries.any (fun e => e.id == id)

/-- Modelled from the spec: `n_cached_objects()`. -/
def n_cached_objects (c : Cache α) : Nat :=
  c.entries.length

/-- Modelled from the spec: `visit(f)` sets `useful ← f(entry)` for every
entry; it removes nothing. -/
def visit (c : Cache α) (f : α → Bool) : Cache α :=
  { c with entries := c.entries.map (fun e => { e with useful := f e.value }) }

/-- Modelled from the spec: one step of `insert`, keyed by the value's id:
replace (re-marking useful) if present, else append marked useful. -/
def insertOne (idOf : α → TileId) (c : Cache α) (v : α) : Cache α :=
  if c.contains (idOf v) then
    { c with entries := c.entries.map (fun e => if e.id == idOf v then { e with value := v, useful := true } else e) }
  else
    { c with entries := c.entries ++ [⟨idOf v, v, true⟩] }

/-- Modelled from the spec: `insert(entries)` adds or replaces, new entries
marked useful. -/
def insert (c : Cache α) (idOf : α → TileId) (vs : List α) : Cache α :=
  vs.foldl (insertOne idOf) c

/-- Modelled from the spec: `purge()` enforces size ≤ capacity, evicting
entries with useful = false first, insertion order as tiebreaker, and
returns the evicted entries; when size ≤ capacity it removes nothing. -/
def purge (c : Cache α) : Cache α × List (Entry α) :=
  if c.entries.length ≤ c.capacity then (c, [])
  else
    let k := c.entries.length - c.capacity
    let victims := ((c.entries.filter (fun e => !e.useful)) ++ (c.entries.filter (fun e => e.useful))).take k
    let vids := victims.map (fun e => e.id)
    ({ c with entries := c.entries.filter (fun e => !(vids.contains e.id)) }, victims)

/-- Modelled from the spec: `set_capacity(N)` updates the target only. -/
def set_capacity (c : Cache α) (n : Nat) : Cache α :=
  { c with capacity := n }

/-- The ids stored in the cache, in insertion order. -/
def ids (c : Cache α) : List TileId :=
  c.entries.map (fun e => e.id)

end Cache

/-- The scheduler state (`Scheduler` members).  The camera, the AABB
decorator and the permissible screen-space error enter every pass only
through `tile_scheduler::utils::refineFunctor(camera, decorator, error,
tile size)`, a pure function of those inputs declared outside this source
drop; following the spec (section 4.C) the `camera` field carries the
resulting refinement predicate directly.  The two single-shot timers are
modelled by their active flag and the interval (in ms, as a C `int`) they
were last started with. -/
structure SchedulerState where
  camera : TileId → Bool
  aabbDecorator : TileId → Aabb
  ram : Cache TileQuad
  gpu : Cache GpuCacheInfo
  defaultOrtho : Blob
  defaultHeight : Blob
  ramQuadLimit : Nat
  gpuQuadLimit : Nat
  updateTimeout : Nat
  purgeTimeout : Nat
  enabled : Bool
  updateTimerActive : Bool
  updateTimerInterval : Int
  purgeTimerActive : Bool
  purgeTimerInterval : Int

/-- `std::numeric_limits<int>::max()`. -/
def intMax : Nat := 2 ^ 31 - 1

/-- The C++ conversion `int(x)` of a 32-bit unsigned value (two's
complement wrap-around). -/
def toInt (x : Nat) : Int :=
  if x % 2 ^ 32 < 2 ^ 31 then (x % 2 ^ 32 : Nat) else (x % 2 ^ 32 : Nat) - 2 ^ 32

/-- Quad-tree traversal, `quad_tree::onTheFlyTraverse` as used by the
scheduler.  Modelled from the spec, section 4.B: top-down from the root; a
node satisfying the predicate is an inner node, is recorded (pre-order, the
`expand` side effect), and its four children are visited; otherwise it is a
leaf.  Recursion is fuelled; the spec (section 9) caps refinement depth via
the predicate, so any fuel beyond that cap yields the same set. -/
def onTheFlyTraverse (fuel : Nat) (refine : TileId → Bool) (id : TileId) : List TileId :=
  match fuel with
  | 0 => []
  | fuel + 1 =>
    if refine id then
      id :: id.children.flatMap (fun c => onTheFlyTraverse fuel refine c)
    else []

/-- Traversal depth bound: beyond the zoom cap of the refinement predicate
(spec section 9, e.g. 20) extra fuel is inert. -/
def traversalFuel : Nat := 32

/-- `Scheduler::tiles_for_current_camera_position`: the inner nodes of the
traversal from the root `tile::Id{0, {0, 0}}` under the refinement
predicate (the computed leaves are discarded by the source). -/
def tiles_for_current_camera_position (s : SchedulerState) : List TileId :=
  onTheFlyTraverse traversalFuel s.camera ⟨0, 0, 0⟩

/-- `Scheduler::send_quad_requests`: take the working set, erase the ids
already in the RAM cache, emit the rest (the returned list is the
`quads_requested` payload). -/
def send_quad_requests (s : SchedulerState) : List TileId :=
  (tiles_for_current_camera_position s).filter (fun id => !(s.ram.contains id))

/-- Building one GPU tile from a CPU tile inside
`Scheduler::update_gpu_quads`: bounds from the decorator; ortho decoded
from the payload when present, else from the default ortho blob; height
likewise via the uint16-raster conversion. -/
def buildGpuTile (aabb : TileId → Aabb) (defO defH : Blob) (t : TileInfo) : GpuTile :=
  { id := t.id
  , bounds := aabb t.id
  , ortho := toQImage (t.ortho.getD defO)
  , height := qImage2uint16Raster (toQImage (t.height.getD defH)) }

/-- Building a whole GPU quad from a CPU quad (`update_gpu_quads`, loop
over the quad's tiles). -/
def buildGpuQuad (aabb : TileId → Aabb) (defO defH : Blob) (q : TileQuad) : GpuTileQuad :=
  { id := q.id, tiles := q.tiles.map (buildGpuTile aabb defO defH) }

/-- The quads promoted by the RAM-cache visit of `update_gpu_quads`: those
whose id the refinement predicate accepts and that are not yet in the GPU
shadow cache, in cache order. -/
def promotedQuads (refine : TileId → Bool) (gpu : Cache GpuCacheInfo)
    (aabb : TileId → Aabb) (defO defH : Blob) (quads : List TileQuad) : List GpuTileQuad :=
  (quads.filter (fun q => refine q.id && !(gpu.contains q.id))).map (buildGpuQuad aabb defO defH)

/-- The `std::erase_if` reconciliation at the end of `update_gpu_quads`:
walk the freshly promoted quads; a quad whose id is in the (evolving) set
of superfluous ids is dropped and its id erased from the set.  Returns the
surviving quads and the remaining superfluous ids. -/
def eraseReconcile : List GpuTileQuad → List TileId → List GpuTileQuad × List TileId
  | [], ids => ([], ids)
  | q :: qs, ids =>
    if q.id ∈ ids then eraseReconcile qs (ids.erase q.id)
    else
      let rest := eraseReconcile qs ids
      (q :: rest.fst, rest.snd)

/-- The payload of the `gpu_quads_updated(added, removed)` signal. -/
structure GpuDelta where
  added : List GpuTileQuad
  removed : List TileId
deriving DecidableEq

/-- The GPU-side pipeline of `Scheduler::update_gpu_quads` as a function of
exactly the data it reads: the refinement predicate, decorator, default
blobs, the RAM-cached quads in cache order, and the GPU shadow cache.
Steps follow the source: promote, insert shadow records, `visit(refine)`,
`purge`, de-duplicate the evicted ids into a set, reconcile via
`std::erase_if`. -/
def passPipeline (refine : TileId → Bool) (aabb : TileId → Aabb) (defO defH : Blob)
    (quads : List TileQuad) (gpu : Cache GpuCacheInfo) : Cache GpuCacheInfo × GpuDelta :=
  let newGpuQuads := promotedQuads refine gpu aabb defO defH quads
  let gpu1 := gpu.insert (fun i => i.id) (newGpuQuads.map (fun t => { id := t.id }))
  let gpu2 := gpu1.visit (fun info => refine info.id)
  let purged := gpu2.purge
  let superfluousIds := (purged.snd.map (fun e => e.id)).dedup
  let reconciled := eraseReconcile newGpuQuads superfluousIds
  (purged.fst, { added := reconciled.fst, removed := reconciled.snd })

/-- `Scheduler::update_gpu_quads`: runs the pipeline and, as a side effect
of the RAM-cache visit, rewrites every RAM entry's useful flag to the
lambda's return value, which is exactly the refinement predicate on the
quad's id.  Returns the new state and the emitted delta. -/
def update_gpu_quads (s : SchedulerState) : SchedulerState × GpuDelta :=
  let res := passPipeline s.camera s.aabbDecorator s.defaultOrtho s.defaultHeight
      (s.ram.entries.map (fun e => e.value)) s.gpu
  ( { s with
      ram := { s.ram with entries := s.ram.entries.map (fun e => { e with useful := s.camera e.value.id }) }
    , gpu := res.fst }
  , res.snd )

/-- Fuelled base-2 logarithm: `log2Aux fuel n = ⌊log₂ n⌋` whenever
`n < 2 ^ fuel` (and `n ≥ 1`); written with structural fuel so that it
reduces inside the kernel. -/
def log2Aux : Nat → Nat → Nat
  | 0, _ => 0
  | fuel + 1, n => if n ≤ 1 then 0 else log2Aux fuel (n / 2) + 1

/-- Round a natural number below `2 ^ 64` to 24 significant bits, to
nearest, ties to even: the significand rounding step of IEEE
single-precision arithmetic on nonnegative values. -/
def rnd24 (n : Nat) : Nat :=
  if n < 2 ^ 24 then n
  else
    let k := log2Aux 64 n - 23
    let q := n / 2 ^ k
    let r := n % 2 ^ k
    let half := 2 ^ (k - 1)
    if half < r || (r == half && q % 2 == 1) then (q + 1) * 2 ^ k else q * 2 ^ k

/-- The purge-gate threshold `unsigned(float(m_ram_quad_limit) * 1.1f)` of
`Scheduler::purge_ram_cache`, computed exactly: `1.1f` is the single
`9227469 / 2^23`; `float(L)` rounds `L` to 24 significant bits; the
product is rounded back to a single and truncated toward zero. -/
def floatThreshold (L : Nat) : Nat :=
  rnd24 (rnd24 L * 9227469) / 2 ^ 23

/-- `Scheduler::purge_ram_cache`: below the float threshold nothing
happens; otherwise visit the RAM cache with the refinement predicate and
purge it. -/
def purge_ram_cache (s : SchedulerState) : SchedulerState :=
  if s.ram.n_cached_objects < floatThreshold s.ramQuadLimit then s
  else { s with ram := ((s.ram.visit (fun q => s.camera q.id)).purge).fst }

/-- The assertion at the top of `Scheduler::set_purge_timeout`: it tests
the supplied value, `assert(new_purge_timeout < INT_MAX)`. -/
def set_purge_timeout_assertOk (t : Nat) : Bool :=
  t < intMax

/-- `Scheduler::set_purge_timeout`: stores the new purge timeout; when the
purge timer is active it is restarted - the source passes
`int(m_update_timeout)` to `start`, not the purge timeout. -/
def set_purge_timeout (s : SchedulerState) (t : Nat) : SchedulerState :=
  let s1 := { s with purgeTimeout := t }
  if s1.purgeTimerActive then { s1 with purgeTimerInterval := toInt s1.updateTimeout }
  else s1

/-- The assertion at the top of `Scheduler::set_update_timeout`: the source
tests `m_update_timeout < INT_MAX`, i.e. the previously stored timeout,
not the supplied argument. -/
def set_update_timeout_assertOk (s : SchedulerState) (_new_update_timeout : Nat) : Bool :=
  s.updateTimeout < intMax

/-- `Scheduler::set_update_timeout`: stores the new update timeout; when
the update timer is active it is restarted with the (new) update
timeout. -/
def set_update_timeout (s : SchedulerState) (t : Nat) : SchedulerState :=
  let s1 := { s with updateTimeout := t }
  if s1.updateTimerActive then { s1 with updateTimerInterval := toInt s1.updateTimeout }
  else s1

/-- `gl_engine::Texture::Filter` (values are GL filter enums in the
source). -/
inductive TexFilter where
  | Nearest : TexFilter
  | Linear : TexFilter
  | MipMapLinear : TexFilter
deriving DecidableEq

/-- `gl_engine::Texture::Format`. -/
inductive TexFormat where
  | RGBA8 : TexFormat
  | CompressedRGBA8 : TexFormat
  | RG8 : TexFormat
  | R16UI : TexFormat
  | Invalid : TexFormat
deriving DecidableEq

/-- The three assertions of `gl_engine::Texture::setParams`, conjoined:
the mag filter is never mip-map filtered; a compressed-RGBA8 texture gets
no mip-map min filter; an R16UI texture is filtered nearest in both
directions. -/
def setParams_assertsOk (fmt : TexFormat) (minF magF : TexFilter) : Bool :=
  (magF != TexFilter.MipMapLinear)
    && (fmt != TexFormat.CompressedRGBA8 || minF != TexFilter.MipMapLinear)
    && (fmt != TexFormat.R16UI || (minF == TexFilter.Nearest && magF == TexFilter.Nearest))

/-- The compatibility condition as the specification words it: an R16UI
texture uses nearest min and mag filtering, and mip-map filtering is only
requested for formats other than CompressedRGBA8.  Stated from the spec's
words for comparison with `setParams_assertsOk`. -/
def specCompatibleFilters (fmt : TexFormat) (minF magF : TexFilter) : Bool :=
  (fmt != TexFormat.R16UI || (minF == TexFilter.Nearest && magF == TexFilter.Nearest))
    && ((minF != TexFilter.MipMapLinear && magF != TexFilter.MipMapLinear)
        || fmt != TexFormat.CompressedRGBA8)

/-- A decodable stand-in for the default white ortho JPEG blob. -/
def exBlobOrtho : Blob := ⟨[1], true⟩

/-- A decodable stand-in for the default black height PNG blob. -/
def exBlobHeight : Blob := ⟨[2], true⟩

/-- Present-but-malformed payload bytes: the external decoder cannot parse
them. -/
def exBlobBad : Blob := ⟨[7], false⟩

/-- A small concrete scheduler state used to instantiate theorems: empty
caches, armed purge timer, update timeout 5 ms, purge timeout 100 ms. -/
def baseState : SchedulerState :=
  { camera := fun _ => true
  , aabbDecorator := fun _ => 0
  , ram := ⟨[], 16⟩
  , gpu := ⟨[], 8⟩
  , defaultOrtho := exBlobOrtho
  , defaultHeight := exBlobHeight
  , ramQuadLimit := 16
  , gpuQuadLimit := 8
  , updateTimeout := 5
  , purgeTimeout := 100
  , enabled := true
  , updateTimerActive := false
  , updateTimerInterval := 0
  , purgeTimerActive := true
  , purgeTimerInterval := 100 }

/-- C1: every id emitted by `send_quad_requests` lies in the working set
computed by the quad-tree traversal and is not in the RAM cache, and every
working-set id absent from the RAM cache is emitted. -/
theorem c1_quads_requested_characterization (s : SchedulerState) (id : TileId) :
    id ∈ send_quad_requests s ↔
      id ∈ tiles_for_current_camera_position s ∧ s.ram.contains id = false := by
  simp [send_quad_requests, List.mem_filter]

/-- C4: evaluating `set_purge_timeout` with the purge timer armed shows the
stored purge timeout becomes the argument (99), but the timer is restarted
with the update timeout (5) instead of the new purge timeout. -/
theorem c4_set_purge_timeout_rearm_uses_update_timeout :
    (set_purge_timeout baseState 99).purgeTimeout = 99
      ∧ (set_purge_timeout baseState 99).purgeTimerActive = true
      ∧ (set_purge_timeout baseState 99).purgeTimerInterval = 5
      ∧ (set_purge_timeout baseState 99).purgeTimerInterval ≠ (99 : Int) := by
  refine ⟨rfl, rfl, rfl, ?_⟩
  decide

/-- C8: the guard of `set_update_timeout` tests the previously stored
timeout, so an argument that does not fit in a signed int passes the
assertion (the stored value 5 is small) and is stored unchecked. -/
theorem c8_set_update_timeout_checks_stale_value :
    set_update_timeout_assertOk baseState (2 ^ 31) = true
      ∧ intMax < 2 ^ 31
      ∧ (set_update_timeout baseState (2 ^ 31)).updateTimeout = 2 ^ 31 := by
  refine ⟨?_, ?_, rfl⟩ <;> decide

/-- C9 counterexample: a call with format RGBA8, min filter Nearest and mag
filter MipMapLinear satisfies the claim's compatibility conditions (the
format is neither R16UI nor CompressedRGBA8) yet fails the assertions of
`setParams`, because the mag filter may never be mip-map filtered. -/
theorem c9_counterexample_mag_mipmap :
    specCompatibleFilters TexFormat.RGBA8 TexFilter.Nearest TexFilter.MipMapLinear = true
      ∧ setParams_assertsOk TexFormat.RGBA8 TexFilter.Nearest TexFilter.MipMapLinear = false := by
  decide

/-- C9 amended: the assertions of `setParams` pass exactly when the spec's
compatibility conditions hold and, additionally, the mag filter is not
mip-map filtered. -/
theorem c9_amended_assert_characterization (fmt : TexFormat) (minF magF : TexFilter) :
    setParams_assertsOk fmt minF magF =
      (specCompatibleFilters fmt minF magF && magF != TexFilter.MipMapLinear) := by
  cases fmt <;> cases minF <;> cases magF <;> rfl

/-- Ids removed by the reconciliation come from the initial superfluous
set. -/
theorem eraseReconcile_snd_subset (qs : List GpuTileQuad) (S : List TileId) :
    ∀ x ∈ (eraseReconcile qs S).snd, x ∈ S := by
  induction qs generalizing S with
  | nil =>
    intro x hx
    simpa [eraseReconcile] using hx
  | cons q qs ih =>
    intro x hx
    by_cases h : q.id ∈ S
    · simp only [eraseReconcile, if_pos h] at hx
      exact List.mem_of_mem_erase (ih (S.erase q.id) x hx)
    · simp only [eraseReconcile, if_neg h] at hx
      exact ih S x hx

/-- Quads surviving the reconciliation come from the promoted list. -/
theorem eraseReconcile_fst_subset (qs : List GpuTileQuad) (S : List TileId) :
    ∀ g ∈ (eraseReconcile qs S).fst, g ∈ qs := by
  induction qs generalizing S with
  | nil =>
    intro g hg
    simp only [eraseReconcile] at hg
    exact absurd hg (List.not_mem_nil g)
  | cons q qs ih =>
    intro g hg
    by_cases h : q.id ∈ S
    · simp only [eraseReconcile, if_pos h] at hg
      exact List.mem_cons_of_mem q (ih (S.erase q.id) g hg)
    · simp only [eraseReconcile, if_neg h] at hg
      rcases List.mem_cons.mp hg with hg | hg
      · exact hg ▸ List.mem_cons_self q qs
      · exact List.mem_cons_of_mem q (ih S g hg)

/-- No quad surviving the reconciliation has its id among the remaining
superfluous ids. -/
theorem eraseReconcile_fst_not_mem_snd (qs : List GpuTileQuad) (S : List TileId) :
    ∀ g ∈ (eraseReconcile qs S).fst, g.id ∉ (eraseReconcile qs S).snd := by
  induction qs generalizing S with
  | nil =>
    intro g hg
    simp only [eraseReconcile] at hg
    exact absurd hg (List.not_mem_nil g)
  | cons q qs ih =>
    intro g hg
    by_cases h : q.id ∈ S
    · simp only [eraseReconcile, if_pos h] at hg ⊢
      exact ih (S.erase q.id) g hg
    · simp only [eraseReconcile, if_neg h] at hg ⊢
      rcases List.mem_cons.mp hg with hg | hg
      · subst hg
        intro hc
        exact h (eraseReconcile_snd_subset qs S g.id hc)
      · exact ih S g hg

/-- When the superfluous set holds exactly the promoted ids (no
duplicates on either side), the reconciliation consumes everything:
nothing is added, nothing is removed. -/
theorem eraseReconcile_all_consumed (qs : List GpuTileQuad) (S : List TileId)
    (hq : (qs.map (fun g => g.id)).Nodup) (hS : S.Nodup)
    (hmem : ∀ x, x ∈ S ↔ x ∈ qs.map (fun g => g.id)) :
    eraseReconcile qs S = ([], []) := by
  induction qs generalizing S with
  | nil =>
    have hnil : S = [] := by
      apply List.eq_nil_iff_forall_not_mem.mpr
      intro x hx
      simpa using (hmem x).mp hx
    simp [eraseReconcile, hnil]
  | cons q qs ih =>
    have hqmem : q.id ∈ S := (hmem q.id).mpr (by simp)
    rw [List.map_cons, List.nodup_cons] at hq
    simp only [eraseReconcile, if_pos hqmem]
    refine ih (S.erase q.id) hq.2 (hS.erase q.id) ?_
    intro x
    rw [hS.mem_erase_iff]
    constructor
    · rintro ⟨hne, hxS⟩
      have hx0 : x ∈ q.id :: qs.map (fun g => g.id) := by
        rw [← List.map_cons]
        exact (hmem x).mp hxS
      rcases List.mem_cons.mp hx0 with hx | hx
      · exact absurd hx hne
      · exact hx
    · intro hx
      refine ⟨?_, (hmem x).mpr (by simp [hx])⟩
      intro he
      exact hq.1 (he ▸ hx)

/-- `contains` answers membership in the stored id list. -/
theorem Cache.contains_iff {α : Type} (c : Cache α) (x : TileId) :
    c.contains x = true ↔ x ∈ c.ids := by
  simp [Cache.contains, Cache.ids, List.any_eq_true, List.mem_map]

/-- `visit` keeps the stored ids. -/
theorem Cache.visit_ids {α : Type} (c : Cache α) (f : α → Bool) :
    (c.visit f).ids = c.ids := by
  simp [Cache.visit, Cache.ids]

/-- `visit` keeps the capacity. -/
theorem Cache.visit_capacity {α : Type} (c : Cache α) (f : α → Bool) :
    (c.visit f).capacity = c.capacity := rfl

/-- Inserting values whose ids are fresh and mutually distinct appends
them, marked useful, in order. -/
theorem Cache.insert_fresh_entries {α : Type} (c : Cache α) (idOf : α → TileId) (vs : List α)
    (hfresh : ∀ v ∈ vs, c.contains (idOf v) = false)
    (hnodup : (vs.map idOf).Nodup) :
    (c.insert idOf vs).entries = c.entries ++ vs.map (fun v => ⟨idOf v, v, true⟩) := by
  induction vs generalizing c with
  | nil => simp [Cache.insert]
  | cons v vs ih =>
    have hv : c.contains (idOf v) = false := hfresh v (List.mem_cons_self v vs)
    have hstep : Cache.insertOne idOf c v = { c with entries := c.entries ++ [⟨idOf v, v, true⟩] } := by
      simp [Cache.insertOne, hv]
    have hfresh2 : ∀ w ∈ vs, ({ c with entries := c.entries ++ [⟨idOf v, v, true⟩] } : Cache α).contains (idOf w) = false := by
      intro w hw
      have hwc : c.contains (idOf w) = false := hfresh w (List.mem_cons_of_mem v hw)
      have hne : idOf w ≠ idOf v := by
        intro he
        have := (List.nodup_cons.mp hnodup).1
        exact this (he ▸ List.mem_map_of_mem idOf hw)
      have hne2 : idOf v ≠ idOf w := fun h => hne h.symm
      simp only [Cache.contains, List.any_append, Bool.or_eq_false_iff] at hwc ⊢
      refine ⟨hwc, ?_⟩
      simp [hne2]
    have := ih { c with entries := c.entries ++ [⟨idOf v, v, true⟩] } hfresh2 (List.nodup_cons.mp hnodup).2
    calc (c.insert idOf (v :: vs)).entries
        = (({ c with entries := c.entries ++ [⟨idOf v, v, true⟩] } : Cache α).insert idOf vs).entries := by
          simp [Cache.insert, hstep]
      _ = c.entries ++ [⟨idOf v, v, true⟩] ++ vs.map (fun w => ⟨idOf w, w, true⟩) := this
      _ = c.entries ++ (v :: vs).map (fun w => ⟨idOf w, w, true⟩) := by
          simp

/-- Entries evicted by `purge` were entries of the cache. -/
theorem Cache.purge_removed_subset {α : Type} (c : Cache α) :
    ∀ e ∈ (c.purge).snd, e ∈ c.entries := by
  intro e he
  unfold Cache.purge at he
  by_cases h : c.entries.length ≤ c.capacity
  · simp [h] at he
  · simp only [if_neg h] at he
    have := List.take_subset _ _ he
    rcases List.mem_append.mp this with h1 | h1
    · exact List.mem_of_mem_filter h1
    · exact List.mem_of_mem_filter h1

/-- An entry survives `purge` exactly when it was present and its id is
not among the evicted ids. -/
theorem Cache.purge_kept_iff {α : Type} (c : Cache α) (e : Entry α) :
    e ∈ (c.purge).fst.entries ↔
      e ∈ c.entries ∧ e.id ∉ (c.purge).snd.map (fun x => x.id) := by
  unfold Cache.purge
  by_cases h : c.entries.length ≤ c.capacity
  · simp [h]
  · simp only [if_neg h, List.mem_filter]
    constructor
    · rintro ⟨hmem, hb⟩
      refine ⟨hmem, ?_⟩
      intro hc
      simp only [Bool.not_eq_true', ← Bool.not_eq_true, List.elem_iff] at hb
      exact hb (by simpa using hc)
    · rintro ⟨hmem, hb⟩
      refine ⟨hmem, ?_⟩
      simp only [Bool.not_eq_true', ← Bool.not_eq_true, List.elem_iff]
      intro hc
      exact hb (by simpa using hc)

/-- Id-level version of `Cache.purge_kept_iff`. -/
theorem Cache.purge_ids_kept_iff {α : Type} (c : Cache α) (x : TileId) :
    x ∈ (c.purge).fst.ids ↔ x ∈ c.ids ∧ x ∉ (c.purge).snd.map (fun e => e.id) := by
  constructor
  · intro hx
    rcases List.mem_map.mp hx with ⟨e, he, rfl⟩
    rcases (Cache.purge_kept_iff c e).mp he with ⟨h1, h2⟩
    exact ⟨List.mem_map_of_mem _ h1, h2⟩
  · rintro ⟨hx, hnot⟩
    rcases List.mem_map.mp hx with ⟨e, he, rfl⟩
    exact List.mem_map_of_mem _ ((Cache.purge_kept_iff c e).mpr ⟨he, hnot⟩)

/-- Building a GPU quad keeps the quad id. -/
theorem buildGpuQuad_id (aabb : TileId → Aabb) (defO defH : Blob) (q : TileQuad) :
    (buildGpuQuad aabb defO defH q).id = q.id := rfl

/-- The promoted ids are the ids of the refined, not-yet-resident cached
quads, in order. -/
theorem promotedQuads_ids (refine : TileId → Bool) (gpu : Cache GpuCacheInfo)
    (aabb : TileId → Aabb) (defO defH : Blob) (quads : List TileQuad) :
    (promotedQuads refine gpu aabb defO defH quads).map (fun g => g.id)
      = (quads.filter (fun q => refine q.id && !(gpu.contains q.id))).map (fun q => q.id) := by
  simp only [promotedQuads, List.map_map]
  rfl

/-- Promoted quads were not in the GPU shadow cache. -/
theorem promotedQuads_fresh (refine : TileId → Bool) (gpu : Cache GpuCacheInfo)
    (aabb : TileId → Aabb) (defO defH : Blob) (quads : List TileQuad) :
    ∀ g ∈ promotedQuads refine gpu aabb defO defH quads, gpu.contains g.id = false := by
  intro g hg
  simp only [promotedQuads, List.mem_map] at hg
  obtain ⟨q, hq, rfl⟩ := hg
  have hfilter := (List.mem_filter.mp hq).2
  rw [Bool.and_eq_true] at hfilter
  have : gpu.contains q.id = false := by
    rcases hfilter with ⟨_, hnot⟩
    simpa using hnot
  exact this

/-- Distinct cached quad ids yield distinct promoted ids. -/
theorem promotedQuads_nodup (refine : TileId → Bool) (gpu : Cache GpuCacheInfo)
    (aabb : TileId → Aabb) (defO defH : Blob) (quads : List TileQuad)
    (hq : (quads.map (fun q => q.id)).Nodup) :
    ((promotedQuads refine gpu aabb defO defH quads).map (fun g => g.id)).Nodup := by
  rw [promotedQuads_ids]
  exact hq.sublist ((List.filter_sublist quads).map (fun q => q.id))

/-- Core of the idempotence argument: when the GPU shadow cache after
insert, visit and purge equals the shadow cache the pass started from, the
evicted ids are exactly the freshly promoted ids, so the reconciliation
consumes both lists entirely. -/
theorem pipelineCore (refine : TileId → Bool) (aabb : TileId → Aabb) (defO defH : Blob)
    (quads : List TileQuad) (gpu : Cache GpuCacheInfo)
    (hq : (quads.map (fun q => q.id)).Nodup)
    (hfix : ((gpu.insert (fun i => i.id)
        ((promotedQuads refine gpu aabb defO defH quads).map (fun t => ⟨t.id⟩))).visit
          (fun info => refine info.id)).purge.fst = gpu) :
    eraseReconcile (promotedQuads refine gpu aabb defO defH quads)
      (((((gpu.insert (fun i => i.id)
          ((promotedQuads refine gpu aabb defO defH quads).map (fun t => ⟨t.id⟩))).visit
            (fun info => refine info.id)).purge).snd.map (fun e => e.id)).dedup) = ([], []) := by
  set P := promotedQuads refine gpu aabb defO defH quads with hP
  set gpu2 := (gpu.insert (fun i => i.id) (P.map (fun t => ⟨t.id⟩))).visit
      (fun info => refine info.id) with hgpu2
  have hfreshP : ∀ g ∈ P, gpu.contains g.id = false := promotedQuads_fresh refine gpu aabb defO defH quads
  have hPnodup : (P.map (fun g => g.id)).Nodup := promotedQuads_nodup refine gpu aabb defO defH quads hq
  have hfreshInfos : ∀ i ∈ P.map (fun t => (⟨t.id⟩ : GpuCacheInfo)), gpu.contains i.id = false := by
    intro i hi
    obtain ⟨g, hgm, rfl⟩ := List.mem_map.mp hi
    exact hfreshP g hgm
  have hinfosNodup : ((P.map (fun t => (⟨t.id⟩ : GpuCacheInfo))).map (fun i => i.id)).Nodup := by
    rw [List.map_map]
    exact hPnodup
  have hins := Cache.insert_fresh_entries gpu (fun i => i.id)
      (P.map (fun t => (⟨t.id⟩ : GpuCacheInfo))) hfreshInfos hinfosNodup
  have hgpu2ids : gpu2.ids = gpu.ids ++ P.map (fun g => g.id) := by
    rw [hgpu2, Cache.visit_ids]
    simp only [Cache.ids, hins, List.map_append, List.map_map]
    rfl
  have hfixedIds : gpu2.purge.fst.ids = gpu.ids := by rw [hfix]
  have hkept := Cache.purge_ids_kept_iff gpu2
  have hA : ∀ x ∈ P.map (fun g => g.id), x ∈ gpu2.purge.snd.map (fun e => e.id) := by
    intro x hx
    have hxg2 : x ∈ gpu2.ids := by
      rw [hgpu2ids]
      exact List.mem_append_right _ hx
    have hxgpu : x ∉ gpu.ids := by
      obtain ⟨g, hgm, rfl⟩ := List.mem_map.mp hx
      intro hc
      have h1 := (Cache.contains_iff gpu g.id).mpr hc
      rw [hfreshP g hgm] at h1
      exact Bool.false_ne_true h1
    by_contra hxe
    have hx2 : x ∈ gpu2.purge.fst.ids := (hkept x).mpr ⟨hxg2, hxe⟩
    rw [hfixedIds] at hx2
    exact hxgpu hx2
  have hB : ∀ x ∈ gpu2.purge.snd.map (fun e => e.id), x ∈ P.map (fun g => g.id) := by
    intro x hx
    obtain ⟨e, he, rfl⟩ := List.mem_map.mp hx
    have heg2 : e ∈ gpu2.entries := Cache.purge_removed_subset gpu2 e he
    have hxg2 : e.id ∈ gpu2.ids := List.mem_map_of_mem _ heg2
    rw [hgpu2ids] at hxg2
    rcases List.mem_append.mp hxg2 with h1 | h1
    · exfalso
      rw [← hfixedIds] at h1
      exact ((hkept e.id).mp h1).2 hx
    · exact h1
  apply eraseReconcile_all_consumed P _ hPnodup (List.nodup_dedup _)
  intro x
  rw [List.mem_dedup]
  exact ⟨hB x, hA x⟩

/-- The emitted delta of the pipeline, spelled out. -/
theorem passPipeline_snd_eq (refine : TileId → Bool) (aabb : TileId → Aabb) (defO defH : Blob)
    (quads : List TileQuad) (gpu : Cache GpuCacheInfo) :
    (passPipeline refine aabb defO defH quads gpu).snd =
      { added := (eraseReconcile (promotedQuads refine gpu aabb defO defH quads)
          (((((gpu.insert (fun i => i.id)
              ((promotedQuads refine gpu aabb defO defH quads).map (fun t => ⟨t.id⟩))).visit
                (fun info => refine info.id)).purge).snd.map (fun e => e.id)).dedup)).fst
      , removed := (eraseReconcile (promotedQuads refine gpu aabb defO defH quads)
          (((((gpu.insert (fun i => i.id)
              ((promotedQuads refine gpu aabb defO defH quads).map (fun t => ⟨t.id⟩))).visit
                (fun info => refine info.id)).purge).snd.map (fun e => e.id)).dedup)).snd } := rfl

/-- The GPU shadow cache left by the pipeline, spelled out. -/
theorem passPipeline_fst_eq (refine : TileId → Bool) (aabb : TileId → Aabb) (defO defH : Blob)
    (quads : List TileQuad) (gpu : Cache GpuCacheInfo) :
    (passPipeline refine aabb defO defH quads gpu).fst =
      ((gpu.insert (fun i => i.id)
        ((promotedQuads refine gpu aabb defO defH quads).map (fun t => ⟨t.id⟩))).visit
          (fun info => refine info.id)).purge.fst := rfl

/-- A pass that leaves the GPU shadow cache unchanged emits an empty
delta. -/
theorem passPipeline_gpu_fixed_snd_empty (refine : TileId → Bool) (aabb : TileId → Aabb)
    (defO defH : Blob) (quads : List TileQuad) (gpu : Cache GpuCacheInfo)
    (hq : (quads.map (fun q => q.id)).Nodup)
    (hfix : (passPipeline refine aabb defO defH quads gpu).fst = gpu) :
    (passPipeline refine aabb defO defH quads gpu).snd = ⟨[], []⟩ := by
  have hfix2 : ((gpu.insert (fun i => i.id)
      ((promotedQuads refine gpu aabb defO defH quads).map (fun t => ⟨t.id⟩))).visit
        (fun info => refine info.id)).purge.fst = gpu := by
    rw [← passPipeline_fst_eq refine aabb defO defH quads gpu]
    exact hfix
  have hcore := pipelineCore refine aabb defO defH quads gpu hq hfix2
  rw [passPipeline_snd_eq, hcore]

/-- A cached quad with no child tiles, used to instantiate theorems. -/
def exQuadA : TileQuad := ⟨⟨1, 0, 0⟩, []⟩

/-- A state holding one refined, not-yet-promoted quad in RAM. -/
def exStateA : SchedulerState :=
  { baseState with ram := ⟨[⟨⟨1, 0, 0⟩, exQuadA, true⟩], 16⟩ }

/-- A child tile carrying present-but-malformed ortho bytes and no height
payload. -/
def exTileBad : TileInfo := ⟨⟨2, 0, 0⟩, some exBlobBad, none⟩

/-- A quad whose only child carries malformed ortho bytes. -/
def exQuadBad : TileQuad := ⟨⟨1, 0, 0⟩, [exTileBad]⟩

/-- A state whose RAM cache holds the malformed quad. -/
def exStateBad : SchedulerState :=
  { baseState with ram := ⟨[⟨⟨1, 0, 0⟩, exQuadBad, true⟩], 16⟩ }

/-- A child tile with both payloads absent. -/
def exTileNil : TileInfo := ⟨⟨3, 0, 0⟩, none, none⟩

/-- A state with RAM limit 1 and exactly one cached quad the refinement
predicate rejects. -/
def exStateSmall : SchedulerState :=
  { baseState with
    camera := fun _ => false
  , ram := ⟨[⟨⟨1, 0, 0⟩, exQuadA, true⟩], 1⟩
  , ramQuadLimit := 1 }

/-- C2: within one emission of `gpu_quads_updated`, no id appears both as
the id of an added quad and in the removed list. -/
theorem c2_added_removed_disjoint (s : SchedulerState) :
    ∀ g ∈ (update_gpu_quads s).snd.added, g.id ∉ (update_gpu_quads s).snd.removed := by
  intro g hg
  have hsnd : (update_gpu_quads s).snd
      = (passPipeline s.camera s.aabbDecorator s.defaultOrtho s.defaultHeight
          (s.ram.entries.map (fun e => e.value)) s.gpu).snd := rfl
  rw [hsnd, passPipeline_snd_eq] at hg
  rw [hsnd, passPipeline_snd_eq]
  exact eraseReconcile_fst_not_mem_snd _ _ g hg

/-- Witness for C2 at a concrete state with one promoted quad. -/
theorem c2_witness :
    buildGpuQuad exStateA.aabbDecorator exStateA.defaultOrtho exStateA.defaultHeight exQuadA
        ∈ (update_gpu_quads exStateA).snd.added
      ∧ (buildGpuQuad exStateA.aabbDecorator exStateA.defaultOrtho exStateA.defaultHeight exQuadA).id
        ∉ (update_gpu_quads exStateA).snd.removed :=
  ⟨by decide, c2_added_removed_disjoint exStateA _ (by decide)⟩

/-- C3: when a pass leaves the GPU shadow cache as it found it (and the
camera and RAM contents are untouched, which a pass guarantees), the next
pass emits an empty delta `(added = removed = ∅)`. -/
theorem c3_second_pass_emits_empty (s : SchedulerState)
    (hq : ((s.ram.entries.map (fun e => e.value)).map (fun q => q.id)).Nodup)
    (hfix : ((update_gpu_quads s).fst).gpu = s.gpu) :
    (update_gpu_quads ((update_gpu_quads s).fst)).snd = ⟨[], []⟩ := by
  set s1 := (update_gpu_quads s).fst with hs1
  have hsnd : (update_gpu_quads s1).snd
      = (passPipeline s1.camera s1.aabbDecorator s1.defaultOrtho s1.defaultHeight
          (s1.ram.entries.map (fun e => e.value)) s1.gpu).snd := rfl
  have hcam : s1.camera = s.camera := rfl
  have haabb : s1.aabbDecorator = s.aabbDecorator := rfl
  have ho : s1.defaultOrtho = s.defaultOrtho := rfl
  have hh : s1.defaultHeight = s.defaultHeight := rfl
  have hvals : s1.ram.entries.map (fun e => e.value) = s.ram.entries.map (fun e => e.value) := by
    rw [hs1]
    simp [update_gpu_quads, List.map_map]
  have hgpu : s1.gpu = s.gpu := hfix
  rw [hsnd, hcam, haabb, ho, hh, hvals, hgpu]
  apply passPipeline_gpu_fixed_snd_empty _ _ _ _ _ _ hq
  have hfst : (passPipeline s.camera s.aabbDecorator s.defaultOrtho s.defaultHeight
      (s.ram.entries.map (fun e => e.value)) s.gpu).fst = ((update_gpu_quads s).fst).gpu := rfl
  rw [hfst]
  exact hfix

/-- Witness for C3 at a concrete state. -/
theorem c3_witness :
    ((baseState.ram.entries.map (fun e => e.value)).map (fun q => q.id)).Nodup
      ∧ ((update_gpu_quads baseState).fst).gpu = baseState.gpu
      ∧ (update_gpu_quads ((update_gpu_quads baseState).fst)).snd = ⟨[], []⟩ :=
  ⟨by decide, by decide, c3_second_pass_emits_empty baseState (by decide) (by decide)⟩

/-- C10: the update pass rewrites every RAM entry's useful flag to the
refinement predicate on the quad's id, and leaves the stored ids, the
stored quads and the capacity unchanged. -/
theorem c10_update_pass_rewrites_ram_flags (s : SchedulerState) :
    ((update_gpu_quads s).fst).ram.entries.map (fun e => e.id) = s.ram.entries.map (fun e => e.id)
      ∧ ((update_gpu_quads s).fst).ram.entries.map (fun e => e.value)
          = s.ram.entries.map (fun e => e.value)
      ∧ ((update_gpu_quads s).fst).ram.capacity = s.ram.capacity
      ∧ ∀ e ∈ ((update_gpu_quads s).fst).ram.entries, e.useful = s.camera e.value.id := by
  refine ⟨?_, ?_, rfl, ?_⟩
  · simp [update_gpu_quads, List.map_map]
  · simp [update_gpu_quads, List.map_map]
  · intro e he
    simp only [update_gpu_quads] at he
    obtain ⟨e0, he0, rfl⟩ := List.mem_map.mp he
    rfl

/-- Witness for C10 at a concrete state. -/
theorem c10_witness :
    (⟨⟨1, 0, 0⟩, exQuadA, true⟩ : Entry TileQuad) ∈ ((update_gpu_quads exStateA).fst).ram.entries
      ∧ (⟨⟨1, 0, 0⟩, exQuadA, true⟩ : Entry TileQuad).useful = exStateA.camera exQuadA.id :=
  ⟨by decide, (c10_update_pass_rewrites_ram_flags exStateA).2.2.2 _ (by decide)⟩

/-- C6: a nil ortho payload makes the GPU tile decode the default ortho
blob, a nil height payload the default height blob; the height raster does
not depend on the ortho payload; and every quad the pass adds is built by
this per-tile construction from a RAM-cached quad (the pass emits nothing
but the delta - there is no error channel). -/
theorem c6_missing_payload_uses_defaults (aabb : TileId → Aabb) (defO defH : Blob) (t : TileInfo) :
    (t.ortho = none → (buildGpuTile aabb defO defH t).ortho = toQImage defO)
      ∧ (t.height = none →
          (buildGpuTile aabb defO defH t).height = qImage2uint16Raster (toQImage defH))
      ∧ (∀ o : Option Blob,
          (buildGpuTile aabb defO defH { t with ortho := o }).height
            = (buildGpuTile aabb defO defH t).height)
      ∧ (∀ s : SchedulerState, ∀ g ∈ (update_gpu_quads s).snd.added,
          ∃ q ∈ s.ram.entries.map (fun e => e.value),
            g = buildGpuQuad s.aabbDecorator s.defaultOrtho s.defaultHeight q) := by
  refine ⟨?_, ?_, ?_, ?_⟩
  · intro h
    simp [buildGpuTile, h]
  · intro h
    simp [buildGpuTile, h]
  · intro o
    rfl
  · intro s g hg
    have hsnd : (update_gpu_quads s).snd
        = (passPipeline s.camera s.aabbDecorator s.defaultOrtho s.defaultHeight
            (s.ram.entries.map (fun e => e.value)) s.gpu).snd := rfl
    rw [hsnd, passPipeline_snd_eq] at hg
    have hsub := eraseReconcile_fst_subset _ _ g hg
    simp only [promotedQuads, List.mem_map] at hsub
    obtain ⟨q, hq2, rfl⟩ := hsub
    exact ⟨q, List.mem_of_mem_filter hq2, rfl⟩

/-- Witness for C6 at a tile with both payloads absent. -/
theorem c6_witness :
    exTileNil.ortho = none
      ∧ (buildGpuTile (fun _ => 0) exBlobOrtho exBlobHeight exTileNil).ortho
          = toQImage exBlobOrtho :=
  ⟨rfl, (c6_missing_payload_uses_defaults (fun _ => 0) exBlobOrtho exBlobHeight exTileNil).1 rfl⟩

/-- C5 counterexample: a quad whose child carries present-but-malformed
ortho bytes is promoted with the malformed bytes handed to the decoder
(yielding the null image); the resulting GPU tile differs from the tile
built from the default blob, so no default substitution took place. -/
theorem c5_counterexample_malformed_not_default :
    (update_gpu_quads exStateBad).snd.added
        = [buildGpuQuad exStateBad.aabbDecorator exBlobOrtho exBlobHeight exQuadBad]
      ∧ (buildGpuTile exStateBad.aabbDecorator exBlobOrtho exBlobHeight exTileBad).ortho
          = Image.null
      ∧ buildGpuTile exStateBad.aabbDecorator exBlobOrtho exBlobHeight exTileBad
          ≠ buildGpuTile exStateBad.aabbDecorator exBlobOrtho exBlobHeight
              { exTileBad with ortho := none } := by
  refine ⟨by decide, by decide, by decide⟩

/-- C5 amended: present-but-malformed payload bytes are passed to the
decoder unchanged - the default blob is substituted only for absent
payloads - and the promotion continues without raising, the tile carrying
the decoder's failure value (the null image). -/
theorem c5_amended_malformed_passed_to_decoder (aabb : TileId → Aabb) (defO defH : Blob)
    (t : TileInfo) (b : Blob) (hsome : t.ortho = some b) (hbad : b.decodable = false) :
    (buildGpuTile aabb defO defH t).ortho = toQImage b
      ∧ (buildGpuTile aabb defO defH t).ortho = Image.null := by
  constructor
  · simp [buildGpuTile, hsome]
  · simp [buildGpuTile, hsome, toQImage, hbad]

/-- Witness for the amended C5. -/
theorem c5_witness :
    exTileBad.ortho = some exBlobBad
      ∧ exBlobBad.decodable = false
      ∧ (buildGpuTile (fun _ => 0) exBlobOrtho exBlobHeight exTileBad).ortho = Image.null :=
  ⟨rfl, rfl,
    (c5_amended_malformed_passed_to_decoder (fun _ => 0) exBlobOrtho exBlobHeight exTileBad
      exBlobBad rfl rfl).2⟩

/-- C7 amended: the purge pass is gated by the single-precision threshold
`unsigned(float(L) * 1.1f)`: below it nothing happens, at or above it the
RAM cache is visited with the refinement predicate (every flag becomes the
predicate's value on the quad's id) and then purged. -/
theorem c7_amended_float_threshold_gate (s : SchedulerState) :
    (s.ram.n_cached_objects < floatThreshold s.ramQuadLimit → purge_ram_cache s = s)
      ∧ (floatThreshold s.ramQuadLimit ≤ s.ram.n_cached_objects →
          purge_ram_cache s = { s with ram := ((s.ram.visit (fun q => s.camera q.id)).purge).fst }
            ∧ ∀ e ∈ (s.ram.visit (fun q => s.camera q.id)).entries,
                e.useful = s.camera e.value.id) := by
  constructor
  · intro h
    simp [purge_ram_cache, h]
  · intro h
    refine ⟨?_, ?_⟩
    · simp [purge_ram_cache, Nat.not_lt.mpr h]
    · intro e he
      obtain ⟨e0, he0, rfl⟩ := List.mem_map.mp he
      rfl

/-- C7 counterexample: with RAM limit 1 and one cached quad, the occupancy
1 is strictly below the claimed real threshold 1.1 × 1 (10 × 1 < 11 × 1),
yet the pass is not a no-op: the float threshold is
`unsigned(float(1) * 1.1f) = 1`, so visit-and-purge runs and flips the
entry's useful flag. -/
theorem c7_counterexample_below_real_threshold :
    exStateSmall.ram.n_cached_objects = 1
      ∧ exStateSmall.ramQuadLimit = 1
      ∧ 10 * exStateSmall.ram.n_cached_objects < 11 * exStateSmall.ramQuadLimit
      ∧ (purge_ram_cache exStateSmall).ram ≠ exStateSmall.ram := by
  refine ⟨rfl, rfl, by decide, by decide⟩

/-- Witness for the amended C7, one concrete state on each side of the
float threshold. -/
theorem c7_witness :
    (baseState.ram.n_cached_objects < floatThreshold baseState.ramQuadLimit
        ∧ purge_ram_cache baseState = baseState)
      ∧ (floatThreshold exStateSmall.ramQuadLimit ≤ exStateSmall.ram.n_cached_objects
        ∧ purge_ram_cache exStateSmall
            = { exStateSmall with
                ram := ((exStateSmall.ram.visit (fun q => exStateSmall.camera q.id)).purge).fst }) :=
  ⟨⟨by decide, (c7_amended_float_threshold_gate baseState).1 (by decide)⟩,
   ⟨by decide, ((c7_amended_float_threshold_gate exStateSmall).2 (by decide)).1⟩⟩
